import Mathlib

/-!
Verification of the crawl–extract–deduplicate–persist pipeline of
`paper_daily.py` (arXiv cs.RO paper crawler).

The Python source is shallowly embedded: pure helpers become Lean functions
over a tree model of parsed HTML (`Node`, standing for BeautifulSoup tags),
the effectful parts (page fetches, the LLM HTTP call, the crawl datetime)
are supplied by an explicit environment `Env`, and the date-keyed archive
dictionary becomes an association list `Archive`.  Machine strings are
`String` (lists of characters); the regexes of the source are implemented
directly as character-list scanners with the same matching semantics.
-/

set_option maxHeartbeats 1000000

/-! ## Python string primitives -/

/-- Whitespace set used by Python's `str.strip()` / `\s` (the characters that
occur in practice: ASCII whitespace plus the no-break space `\xa0`). -/
def isPySpace (c : Char) : Bool :=
  c == ' ' || c == '\t' || c == '\n' || c == '\r' || c == '\x0b' || c == '\x0c' || c == '\xa0'

/-- Python `str.strip()` on a character list. -/
def pyStrip (cs : List Char) : List Char :=
  ((cs.dropWhile isPySpace).reverse.dropWhile isPySpace).reverse

/-- Python `str.strip()` on a `String`. -/
def pyStripStr (s : String) : String :=
  ⟨pyStrip s.data⟩

/-- Python `.replace("\xa0", " ")`: single-character replacement is a map. -/
def replaceNbsp (s : String) : String :=
  ⟨s.data.map (fun c => if c == '\xa0' then ' ' else c)⟩

/-- Does `pat` occur as a prefix of `cs`? -/
def startsList : List Char → List Char → Bool
  | [], _ => true
  | _ :: _, [] => false
  | p :: ps, c :: cs => p == c && startsList ps cs

/-- Python `s.startswith(p)`. -/
def strStarts (p s : String) : Bool :=
  startsList p.data s.data

/-- Fuelled worker for Python `str.replace(pat, "")`: removes all
non-overlapping occurrences of `pat`, scanning left to right. -/
def dropPat (pat : List Char) : Nat → List Char → List Char
  | _, [] => []
  | 0, cs => cs
  | fuel + 1, c :: rest =>
    if startsList pat (c :: rest) then dropPat pat fuel (List.drop pat.length (c :: rest))
    else c :: dropPat pat fuel rest

/-- Python `s.replace(pat, "")` (the only replacement target used by the
metadata cleaners of the source). -/
def removeSub (pat : String) (s : String) : String :=
  ⟨dropPat pat.data s.data.length s.data⟩

/-- Python `sep.join(l)` for a non-empty separator. -/
def joinSep (sep : String) : List String → String
  | [] => ""
  | [x] => x
  | x :: y :: rest => x ++ sep ++ joinSep sep (y :: rest)

/-- Does the lowercased string contain `"pdf"`?  This is
`PDF_LINK_PATTERN = re.compile(r'pdf', re.IGNORECASE)` applied via `search`. -/
def pdfIn : List Char → Bool
  | [] => false
  | c :: rest => startsList ['p', 'd', 'f'] (c :: rest) || pdfIn rest

/-- Case-insensitive substring test for `"pdf"` on a `String`. -/
def hasPdfSub (s : String) : Bool :=
  pdfIn (s.data.map Char.toLower)

/-- Maximal run of `\S` (non-whitespace) characters; `none` if the run is
empty, otherwise the remainder after the run.  Implements the `\S+` tail of
`URL_PATTERN`. -/
def nonspaceTail (cs : List Char) : Option (List Char) :=
  if (cs.takeWhile (fun c => !isPySpace c)).isEmpty then none
  else some (cs.dropWhile (fun c => !isPySpace c))

/-- One attempted match of `URL_PATTERN = r'https?://\S+|www\.\S+'` at the
head of the list; returns the remainder after the match. -/
def urlMatchAt (cs : List Char) : Option (List Char) :=
  match cs with
  | 'h' :: 't' :: 't' :: 'p' :: 's' :: ':' :: '/' :: '/' :: r => nonspaceTail r
  | 'h' :: 't' :: 't' :: 'p' :: ':' :: '/' :: '/' :: r => nonspaceTail r
  | 'w' :: 'w' :: 'w' :: '.' :: r => nonspaceTail r
  | _ => none

/-- Fuelled worker for `URL_PATTERN.sub("", s)`. -/
def urlSubGo : Nat → List Char → List Char
  | 0, cs => cs
  | _ + 1, [] => []
  | fuel + 1, c :: rest =>
    match urlMatchAt (c :: rest) with
    | some rest1 => urlSubGo fuel rest1
    | none => c :: urlSubGo fuel rest

/-- Python `URL_PATTERN.sub("", s)`: delete every URL match. -/
def urlSubStr (s : String) : String :=
  ⟨urlSubGo s.data.length s.data⟩

/-- Digit run to number, as Python `int` on a decimal digit string. -/
def digitsToNat (ds : List Char) : Nat :=
  ds.foldl (fun acc c => 10 * acc + (c.toNat - '0'.toNat)) 0

/-! ## HTML tree model (BeautifulSoup tags) -/

/-- A parsed HTML node: either a text node or an element with tag name,
optional `id`, class list, optional `title` and `href` attributes, and
children.  Only the attributes the source ever queries are modelled. -/
inductive Node where
  | text (s : String)
  | elem (tag : String) (idAttr : Option String) (classes : List String)
      (titleAttr : Option String) (hrefAttr : Option String) (children : List Node)

/-- Children of a node (a text node has none). -/
def childs : Node → List Node
  | .text _ => []
  | .elem _ _ _ _ _ ch => ch

/-- Tag-name test. -/
def tagIs (t : String) : Node → Bool
  | .elem tg _ _ _ _ _ => tg == t
  | _ => false

/-- BeautifulSoup `class_=c` matching: the class list contains `c`. -/
def hasClass (c : String) : Node → Bool
  | .elem _ _ cl _ _ _ => cl.contains c
  | _ => false

/-- Whole-attribute class string match (BeautifulSoup also matches a
multi-class selector string against the full `class` attribute). -/
def classStrIs (s : String) : Node → Bool
  | .elem _ _ cl _ _ _ => joinSep " " cl == s
  | _ => false

/-- Attribute `id=i` test. -/
def idIs (i : String) : Node → Bool
  | .elem _ (some j) _ _ _ _ => j == i
  | _ => false

/-- Attribute `title=t` test. -/
def titleIs (t : String) : Node → Bool
  | .elem _ _ _ (some x) _ _ => x == t
  | _ => false

/-- The `href` attribute of an element, when present. -/
def hrefOf : Node → Option String
  | .elem _ _ _ _ h _ => h
  | _ => none

mutual

/-- Matches contributed by a single node: the node itself when it matches,
followed by the matches among its descendants. -/
def findAllN (p : Node → Bool) : Node → List Node
  | .text _ => []
  | .elem t i cl ti h ch =>
    (if p (.elem t i cl ti h ch) then [Node.elem t i cl ti h ch] else []) ++ findAllL p ch

/-- BeautifulSoup `find_all(pred)` over a child list: all matching
descendant elements in document (preorder) order. -/
def findAllL (p : Node → Bool) : List Node → List Node
  | [] => []
  | n :: rest => findAllN p n ++ findAllL p rest

end

/-- BeautifulSoup `tag.find(pred)`: first matching descendant of `n`. -/
def find1 (p : Node → Bool) (n : Node) : Option Node :=
  (findAllL p (childs n)).head?

mutual

/-- All descendant text, concatenated (BeautifulSoup `get_text()`). -/
def getTextN : Node → String
  | .text s => s
  | .elem _ _ _ _ _ ch => getTextL ch

/-- Concatenated text of a child list. -/
def getTextL : List Node → String
  | [] => ""
  | n :: rest => getTextN n ++ getTextL rest

end

mutual

/-- Stripped text fragments of one node (BeautifulSoup `get_text(strip=True)`
strips each string and drops the ones that become empty). -/
def strippedTextsN : Node → List String
  | .text s => if pyStripStr s == "" then [] else [pyStripStr s]
  | .elem _ _ _ _ _ ch => strippedTexts ch

/-- Stripped text fragments of a child list. -/
def strippedTexts : List Node → List String
  | [] => []
  | n :: rest => strippedTextsN n ++ strippedTexts rest

end

/-- BeautifulSoup `tag.get_text(strip=True)`. -/
def getTextStrip (n : Node) : String :=
  String.join (strippedTexts (childs n))

mutual

/-- A single node after decomposition: dropped entirely when it matches,
otherwise kept with its children filtered. -/
def removeAllN (p : Node → Bool) : Node → List Node
  | .text s => [.text s]
  | .elem t i cl ti h ch =>
    if p (.elem t i cl ti h ch) then [] else [Node.elem t i cl ti h (removeAllL p ch)]

/-- Remove every matching descendant (BeautifulSoup `decompose` applied to
each element of a `find_all` result). -/
def removeAllL (p : Node → Bool) : List Node → List Node
  | [] => []
  | n :: rest => removeAllN p n ++ removeAllL p rest

end

/-- Decompose matching descendants within a node. -/
def removeAll (p : Node → Bool) : Node → Node
  | .text s => .text s
  | .elem t i cl ti h ch => .elem t i cl ti h (removeAllL p ch)

/-! ## Element predicates used by the source -/

def isAbstractDiv (n : Node) : Bool := tagIs "div" n && hasClass "ltx_abstract" n
def isLtxP (n : Node) : Bool := tagIs "p" n && hasClass "ltx_p" n
def isLtxParaDiv (n : Node) : Bool := tagIs "div" n && hasClass "ltx_para" n
def isS1 (n : Node) : Bool := tagIs "section" n && idIs "S1" n
def isItemizeUl (n : Node) : Bool := tagIs "ul" n && hasClass "ltx_itemize" n
def isLtxItem (n : Node) : Bool := tagIs "li" n && hasClass "ltx_item" n
def isMetaDiv (n : Node) : Bool := tagIs "div" n && hasClass "meta" n
def isListTitle (n : Node) : Bool := tagIs "div" n && hasClass "list-title" n
def isListAuthors (n : Node) : Bool := tagIs "div" n && hasClass "list-authors" n
def isListSubjects (n : Node) : Bool := tagIs "div" n && hasClass "list-subjects" n
def isListComments (n : Node) : Bool := tagIs "div" n && hasClass "list-comments" n
def isHtmlAnchor (n : Node) : Bool := tagIs "a" n && titleIs "View HTML" n
def isAbsAnchor (n : Node) : Bool := tagIs "a" n && titleIs "Abstract" n
def isHrefAnchor (n : Node) : Bool := tagIs "a" n && (hrefOf n).isSome

/-- Elements decomposed by `extract_introduction` before collecting content:
`find_all(["div", "button"], class_=["ltx_pagination", "sr-only button"])`. -/
def isIntroRemovable (n : Node) : Bool :=
  (tagIs "div" n || tagIs "button" n)
    && (hasClass "ltx_pagination" n || classStrIs "sr-only button" n)

/-! ## Field extractor (lines 95–128 of the source) -/

/-- Shared paragraph text cleanup:
`get_text(strip=False).strip().replace("\xa0", " ")`. -/
def cleanText (n : Node) : String :=
  replaceNbsp (pyStripStr (getTextN n))

/-- Line 95 `extract_abstract`: the first `div.ltx_abstract` container, then
its first `p.ltx_p`; the fixed placeholder when either is missing. -/
def extract_abstract (soup : Node) : String :=
  match find1 isAbstractDiv soup with
  | none => "未获取到摘要"
  | some cont =>
    match find1 isLtxP cont with
    | none => "未获取到摘要"
    | some p => cleanText p

/-- Paragraph texts collected by the first loop of `extract_introduction`:
every descendant `div.ltx_para` contributes its first `p.ltx_p`, if any. -/
def introParas (sec : Node) : List String :=
  (findAllL isLtxParaDiv (childs sec)).filterMap (fun d => (find1 isLtxP d).map cleanText)

/-- One iteration of the list-item loop (line 122): index `idx` is the
`enumerate` counter.  `li.find("div", class_="ltx_para")` returning `None`
makes the chained `.find` raise `AttributeError`; a missing `p.ltx_p` is
merely skipped. -/
def liLine (idx : Nat) (li : Node) : Except String (Option String) :=
  match find1 isLtxParaDiv li with
  | none => .error "AttributeError"
  | some d =>
    match find1 isLtxP d with
    | none => .ok none
    | some p => .ok (some (Nat.repr idx ++ ". " ++ cleanText p))

/-- The `enumerate(ul.find_all("li", class_="ltx_item"), 1)` loop: the index
advances on every list item, whether or not the item contributes a line. -/
def numberLis : Nat → List Node → Except String (List String)
  | _, [] => .ok []
  | idx, li :: rest =>
    match liLine idx li with
    | .error e => .error e
    | .ok o =>
      match numberLis (idx + 1) rest with
      | .error e => .error e
      | .ok tail => .ok (match o with | some s => s :: tail | none => tail)

/-- The outer `for ul in intro_section.find_all("ul", class_="ltx_itemize")`
loop; numbering restarts at 1 for every list. -/
def itemsOfUls : List Node → Except String (List String)
  | [] => .ok []
  | ul :: rest =>
    match numberLis 1 (findAllL isLtxItem (childs ul)) with
    | .error e => .error e
    | .ok xs =>
      match itemsOfUls rest with
      | .error e => .error e
      | .ok ys => .ok (xs ++ ys)

/-- Line 105 `extract_introduction`: section `S1`, pagination/buttons
decomposed, paragraph texts first, then the numbered list items, joined with
blank lines; the placeholder when the section is missing or nothing was
collected.  The `Except` models the uncaught `AttributeError` of line 123. -/
def extract_introduction (soup : Node) : Except String String :=
  match find1 isS1 soup with
  | none => .ok "未获取到引言"
  | some sec0 =>
    let sec := removeAll isIntroRemovable sec0
    match itemsOfUls (findAllL isItemizeUl (childs sec)) with
    | .error e => .error e
    | .ok its =>
      let contents := introParas sec ++ its
      .ok (if contents.isEmpty then "未获取到引言" else joinSep "\n\n" contents)

/-! ## Link and metadata helpers (lines 131–180, 411–464) -/

/-- Normalisation applied to detail/abstract links (lines 416–417, 463–464):
strip, then absolutise a leading-slash path against `https://arxiv.org`. -/
def normalizeLink (h : String) : String :=
  let s := pyStripStr h
  if strStarts "/" s then "https://arxiv.org" ++ s else s

/-- Lines 412–417: the HTML detail link of a listing item — the first
`a[title="View HTML"]` anchor's `href`, if both exist. -/
def findHtmlLink (dt : Node) : Option String :=
  (find1 isHtmlAnchor dt).bind hrefOf

/-- Lines 460–464: the abstract link, empty string when absent. -/
def findAbsLinkStr (dt : Node) : String :=
  match (find1 isAbsAnchor dt).bind hrefOf with
  | none => ""
  | some h => normalizeLink h

/-- Line 442: `dd.find("div", class_="meta")`. -/
def findMeta (dd : Node) : Option Node :=
  find1 isMetaDiv dd

/-- Line 154 `extract_pdf_link`, inner loop over the anchors of the `dt`
tag: the first `href` containing `pdf` that is a leading-slash path (then
absolutised) or already absolute; otherwise the scan continues, and the
empty string results when nothing qualifies. -/
def pdfPick : List String → String
  | [] => ""
  | h :: rest =>
    let href := pyStripStr h
    if hasPdfSub href then
      if strStarts "/" href then "https://arxiv.org" ++ href
      else if strStarts "http://" href || strStarts "https://" href then href
      else pdfPick rest
    else pdfPick rest

/-- Line 154 `extract_pdf_link` on a `dt` tag. -/
def extract_pdf_link (dt : Node) : String :=
  pdfPick ((findAllL isHrefAnchor (childs dt)).filterMap hrefOf)

/-- Lines 448–449 title extraction from the meta block. -/
def extractTitle (meta : Node) : String :=
  match find1 isListTitle meta with
  | none => "未知标题"
  | some t => pyStripStr (removeSub "Title:" (getTextStrip t))

/-- Lines 451–452 authors extraction. -/
def extractAuthors (meta : Node) : String :=
  match find1 isListAuthors meta with
  | none => "未知作者"
  | some t => pyStripStr (removeSub "Authors:" (getTextStrip t))

/-- Lines 454–455 subjects extraction. -/
def extractSubjects (meta : Node) : String :=
  match find1 isListSubjects meta with
  | none => "未知学科"
  | some t => pyStripStr (removeSub "Subjects:" (getTextStrip t))

/-- Line 131 `process_comment_and_code`: collect qualifying anchor targets
(deduplicated; Python uses a `set`, whose iteration order is unspecified —
first-occurrence order is one admissible realisation), then clean the
comment text by deleting URLs and trailing `[,; ]` punctuation. -/
def process_comment_and_code (ct : Option Node) : String × String :=
  match ct with
  | none => ("", "")
  | some tag =>
    let hrefs := (findAllL isHrefAnchor (childs tag)).filterMap hrefOf
    let urls := hrefs.foldl (fun acc h =>
      let url := pyStripStr h
      if strStarts "/" url || strStarts "http://" url || strStarts "https://" url then
        let full := if strStarts "/" url then "https://arxiv.org" ++ url else url
        if acc.contains full then acc else acc ++ [full]
      else acc) []
    let codeStr := if urls.isEmpty then "" else joinSep ", " urls
    let raw := pyStripStr (removeSub "Comments:" (getTextStrip tag))
    let clean := pyStripStr (urlSubStr raw)
    let clean2 : String :=
      ⟨(clean.data.reverse.dropWhile (fun c => c == ',' || c == ';' || c == ' ')).reverse⟩
    (clean2, codeStr)

/-! ## Summarizer (lines 183–241) -/

/-- Result dictionary of `call_llm_for_summary`. -/
structure LLMResult where
  summary : String
  score : Nat
  error : String
deriving DecidableEq

/-- One attempted match of `LLM_SCORE_PATTERN = r'分数：(\d+)分'` at the head
of the list: the literal marker, a non-empty maximal digit run, then the
closing character.  (Backtracking cannot shorten the run, since the closing
character is not a digit.) -/
def tryScoreAt : List Char → Option Nat
  | '分' :: '数' :: '：' :: rest =>
    let ds := rest.takeWhile Char.isDigit
    (match rest.dropWhile Char.isDigit with
     | '分' :: _ => if ds.isEmpty then none else some (digitsToNat ds)
     | _ => none)
  | _ => none

/-- `LLM_SCORE_PATTERN.search`: leftmost match wins. -/
def searchScore : List Char → Option Nat
  | [] => none
  | c :: rest =>
    match tryScoreAt (c :: rest) with
    | some v => some v
    | none => searchScore rest

/-- Line 227: the extracted score, kept only when the marker is present and
its value lies in 1–5, else 0. -/
def llmScore (summary : String) : Nat :=
  match searchScore summary.data with
  | some v => if 1 ≤ v && v ≤ 5 then v else 0
  | none => 0

/-- Lines 212–241 of `call_llm_for_summary`, as a function of the HTTP
outcome (`Except.error` is any raised exception, carrying its message;
`Except.ok` carries the returned message content). -/
def call_llm_for_summary (resp : Except String String) : LLMResult :=
  match resp with
  | .ok content =>
    let summary := pyStripStr content
    { summary := summary, score := llmScore summary, error := "" }
  | .error e => { summary := "大模型总结失败", score := 0, error := e }

/-! ## Record store: the date-keyed archive (lines 16, 358–377, 419–430, 474–491) -/

/-- One entry of the archive — the `paper_data` dictionary of line 474. -/
structure PaperData where
  crawl_datetime : String
  title : String
  authors : String
  subjects : String
  comment : String
  pdf_link : String
  code : String
  arxiv_abs_link : String
  arxiv_html_link : String
  abstract : String
  introduction : String
  llm_summary : String
  llm_score : Nat
  llm_error : String
deriving DecidableEq

/-- The date-keyed archive `all_papers_global : Dict[str, List[Dict]]`,
as an association list in key insertion order. -/
abbrev Archive := List (String × List PaperData)

/-- Dictionary lookup (first binding wins; Python dict keys are unique). -/
def lookupA : Archive → String → Option (List PaperData)
  | [], _ => none
  | (d, ps) :: rest, k => if d = k then some ps else lookupA rest k

/-- Lines 376–377: `if current_date not in all_papers_global:
all_papers_global[current_date] = []` (new dict keys go at the end). -/
def ensureToday (today : String) (a : Archive) : Archive :=
  if (lookupA a today).isSome then a else a ++ [(today, [])]

/-- Line 491: `all_papers_global[current_date].append(paper_data)` — append
to the (first) bucket keyed by `today`. -/
def appendEntry (today : String) (pd : PaperData) : Archive → Archive
  | [] => []
  | (d, ps) :: rest =>
    if d = today then (d, ps ++ [pd]) :: rest
    else (d, ps) :: appendEntry today pd rest

/-- Lines 419–427: the duplicate scan over every bucket of the archive,
comparing each stored `arxiv_html_link` against the candidate link. -/
def containsLink : Archive → String → Bool
  | [], _ => false
  | (_, ps) :: rest, l =>
    ps.any (fun p => p.arxiv_html_link == l) || containsLink rest l

/-- Line 371: `sum(len(papers) for papers in all_papers_global.values())`. -/
def totalCount : Archive → Nat
  | [] => 0
  | (_, ps) :: rest => ps.length + totalCount rest

/-- All stored identifiers (each entry's `arxiv_html_link`), bucket by
bucket in archive order. -/
def allLinks : Archive → List String
  | [] => []
  | (_, ps) :: rest => ps.map (fun p => p.arxiv_html_link) ++ allLinks rest

/-- Outcome of reading the durable JSON file at lines 359–368. -/
inductive LoadResult where
  | fileMissing
  | loadError (msg : String)
  | loaded (a : Archive)

/-- Lines 358–368: `FileNotFoundError` and any other load failure both fall
back to the empty archive; a successful read is used as-is. -/
def load_archive : LoadResult → Archive
  | .fileMissing => []
  | .loadError _ => []
  | .loaded a => a

/-! ## Crawl loop (lines 379–512, restricted to the per-item pipeline) -/

/-- External collaborators of one page-processing pass: the detail-page
fetcher (`get_arxiv_soup`, `None` on failure), the summarizer HTTP call
keyed by the prompt fields, and the page's `crawl_datetime` stamp. -/
structure Env where
  fetchDetail : String → Option Node
  llmResponse : String → String → String → Except String String
  crawlDatetime : String

/-- Result of one loop iteration over a `(dt, dd)` pair: the produced entry
(`Except.error` when `extract_introduction` raises, `none` when the item is
skipped), plus effect flags recording whether the detail fetch and the
summarizer call were reached. -/
structure ItemResult where
  outcome : Except String (Option PaperData)
  fetchedDetail : Bool
  calledLLM : Bool

/-- Lines 432–489: everything after the duplicate check — PDF link, detail
fetch (skip on failure), meta block (skip when missing), field extraction,
summarization, and assembly of `paper_data`. -/
def itemOutcome (env : Env) (html_link : String) (dt dd : Node) : ItemResult :=
  let pdf_link := extract_pdf_link dt
  match env.fetchDetail html_link with
  | none => ⟨.ok none, true, false⟩
  | some paper_soup =>
    match findMeta dd with
    | none => ⟨.ok none, true, false⟩
    | some meta_div =>
      let title := extractTitle meta_div
      let authors := extractAuthors meta_div
      let subjects := extractSubjects meta_div
      let cc := process_comment_and_code (find1 isListComments meta_div)
      let abs_link := findAbsLinkStr dt
      let abstract := extract_abstract paper_soup
      match extract_introduction paper_soup with
      | .error e => ⟨.error e, true, false⟩
      | .ok introduction =>
        let llm := call_llm_for_summary (env.llmResponse title abstract introduction)
        ⟨.ok (some
          { crawl_datetime := env.crawlDatetime
            title := title
            authors := authors
            subjects := subjects
            comment := cc.1
            pdf_link := pdf_link
            code := cc.2
            arxiv_abs_link := abs_link
            arxiv_html_link := html_link
            abstract := abstract
            introduction := introduction
            llm_summary := llm.summary
            llm_score := llm.score
            llm_error := llm.error }), true, true⟩

/-- Lines 411–489, one full iteration: missing HTML link → skip before any
fetch; duplicate identifier → skip before any fetch; otherwise the rest of
the pipeline runs. -/
def processOneItem (env : Env) (archive : Archive) (dt dd : Node) : ItemResult :=
  match findHtmlLink dt with
  | none => ⟨.ok none, false, false⟩
  | some href =>
    let html_link := normalizeLink href
    if containsLink archive html_link then ⟨.ok none, false, false⟩
    else itemOutcome env html_link dt dd

/-- Archive after one loop iteration: append the produced entry to today's
bucket, otherwise leave the archive unchanged (an uncaught exception also
leaves it unchanged — the entry was never assembled). -/
def stepArchive (env : Env) (today : String) (archive : Archive) (dt dd : Node) : Archive :=
  match (processOneItem env archive dt dd).outcome with
  | .ok (some pd) => appendEntry today pd archive
  | _ => archive

/-- Lines 408–492: the `for idx, (dt, dd) in enumerate(zip(dt_list,
dd_list), 1)` loop.  The boolean is `false` when an uncaught exception
aborted the loop (the archive keeps everything appended so far, as the
global does in the source). -/
def processItems (env : Env) (today : String) : Archive → List (Node × Node) → Archive × Bool
  | a, [] => (a, true)
  | a, (dt, dd) :: rest =>
    match (processOneItem env a dt dd).outcome with
    | .error _ => (a, false)
    | .ok none => processItems env today a rest
    | .ok (some pd) => processItems env today (appendEntry today pd a) rest

/-- Lines 398–404: unequal `dt`/`dd` lists are truncated to the shorter
length; the boolean records that the mismatch warning was logged. -/
def truncateLists (dts dds : List Node) : List Node × List Node × Bool :=
  if dts.length ≠ dds.length then
    let m := min dts.length dds.length
    (dts.take m, dds.take m, true)
  else (dts, dds, false)

/-- The item pairs actually handed to the loop (`zip(dt_list, dd_list)`
after truncation). -/
def pairItems (dts dds : List Node) : List (Node × Node) :=
  (truncateLists dts dds).1.zip (truncateLists dts dds).2.1

/-- One crawl run over the items of an unchanged listing source: load the
archive (lines 358–368), ensure today's bucket (376–377), process the items
(408–492). -/
def runCrawl (env : Env) (today : String) (fs : LoadResult) (items : List (Node × Node)) :
    Archive × Bool :=
  processItems env today (ensureToday today (load_archive fs)) items

/-! ## Interrupt handler (lines 18–34) -/

/-- Observable outcome of the SIGINT handler: whether the JSON flush was
attempted, whether the renderer (`json_to_markdown`) was invoked, and the
process exit code. -/
structure HandlerResult where
  flushAttempted : Bool
  rendered : Bool
  exitCode : Nat
deriving DecidableEq

/-- Lines 18–32 `signal_handler`: flush and render only when the global
archive dictionary is non-empty; a flush failure (`flushOk = false`) is
caught, skipping the render; the `finally` block exits with code 0 in every
case. -/
def signal_handler (archive : Archive) (flushOk : Bool) : HandlerResult :=
  if archive.isEmpty then ⟨false, false, 0⟩
  else if flushOk then ⟨true, true, 0⟩
  else ⟨true, false, 0⟩

/-- Equality of `Except` results is decidable componentwise (used to state
concrete evaluations of `extract_introduction` and the loop outcomes). -/
instance {ε α : Type} [DecidableEq ε] [DecidableEq α] : DecidableEq (Except ε α) := fun a b =>
  match a, b with
  | .ok x, .ok y =>
    if h : x = y then .isTrue (by rw [h]) else .isFalse (fun hc => h (Except.ok.inj hc))
  | .error x, .error y =>
    if h : x = y then .isTrue (by rw [h]) else .isFalse (fun hc => h (Except.error.inj hc))
  | .ok _, .error _ => .isFalse (fun hc => Except.noConfusion hc)
  | .error _, .ok _ => .isFalse (fun hc => Except.noConfusion hc)

/-! ## Archive lemmas -/

theorem appendEntry_bucket_none (today : String) (pd : PaperData) :
    ∀ a : Archive, lookupA a today = none → appendEntry today pd a = a
  | [], _ => rfl
  | (k, ps) :: rest, h => by
    have hk : k ≠ today := by
      intro hc
      simp [lookupA, hc] at h
    have h' : lookupA rest today = none := by
      simpa [lookupA, hk] using h
    simp [appendEntry, hk, appendEntry_bucket_none today pd rest h']

theorem lookupA_appendEntry_self (today : String) (pd : PaperData) :
    ∀ a : Archive, (lookupA a today).isSome →
      lookupA (appendEntry today pd a) today = some ((lookupA a today).getD [] ++ [pd])
  | [], h => by simp [lookupA] at h
  | (k, ps) :: rest, h => by
    by_cases hk : k = today
    · subst hk
      simp [appendEntry, lookupA]
    · have h' : (lookupA rest today).isSome := by
        simpa [lookupA, hk] using h
      simp [appendEntry, hk, lookupA, lookupA_appendEntry_self today pd rest h']

theorem lookupA_appendEntry_ne (today d : String) (pd : PaperData) (hne : d ≠ today) :
    ∀ a : Archive, lookupA (appendEntry today pd a) d = lookupA a d
  | [] => rfl
  | (k, ps) :: rest => by
    by_cases hk : k = today
    · subst hk
      have hkd : ¬(k = d) := fun hc => hne hc.symm
      simp [appendEntry, lookupA, hkd]
    · simp [appendEntry, hk, lookupA, lookupA_appendEntry_ne today d pd hne rest]

theorem isSome_lookupA_appendEntry (today k : String) (pd : PaperData) (a : Archive)
    (h : (lookupA a k).isSome) : (lookupA (appendEntry today pd a) k).isSome := by
  by_cases hk : k = today
  · subst hk
    rw [lookupA_appendEntry_self _ pd a h]
    rfl
  · rwa [lookupA_appendEntry_ne today k pd hk a]

theorem totalCount_appendEntry (today : String) (pd : PaperData) :
    ∀ a : Archive, (lookupA a today).isSome →
      totalCount (appendEntry today pd a) = totalCount a + 1
  | [], h => by simp [lookupA] at h
  | (k, ps) :: rest, h => by
    by_cases hk : k = today
    · subst hk
      simp only [appendEntry, if_pos rfl, totalCount, List.length_append,
        List.length_cons, List.length_nil]
      omega
    · have h' : (lookupA rest today).isSome := by
        simpa [lookupA, hk] using h
      simp only [appendEntry, if_neg hk, totalCount,
        totalCount_appendEntry today pd rest h']
      omega

theorem containsLink_iff_mem_allLinks (l : String) :
    ∀ a : Archive, containsLink a l = true ↔ l ∈ allLinks a
  | [] => by simp [containsLink, allLinks]
  | (k, ps) :: rest => by
    simp only [containsLink, allLinks, Bool.or_eq_true, List.any_eq_true, beq_iff_eq,
      List.mem_append, List.mem_map, containsLink_iff_mem_allLinks l rest]

theorem allLinks_appendEntry_perm (today : String) (pd : PaperData) :
    ∀ a : Archive, (lookupA a today).isSome →
      (allLinks (appendEntry today pd a)).Perm (pd.arxiv_html_link :: allLinks a)
  | [], h => by simp [lookupA] at h
  | (k, ps) :: rest, h => by
    by_cases hk : k = today
    · subst hk
      simp only [appendEntry, if_pos rfl, allLinks, List.map_append, List.map_cons,
        List.map_nil, List.append_assoc, List.singleton_append]
      exact List.perm_middle
    · have h' : (lookupA rest today).isSome := by
        simpa [lookupA, hk] using h
      simp only [appendEntry, if_neg hk, allLinks]
      exact List.Perm.trans
        (List.Perm.append_left _ (allLinks_appendEntry_perm today pd rest h'))
        List.perm_middle

theorem containsLink_appendEntry_mono (today l : String) (pd : PaperData) (a : Archive)
    (h : containsLink a l = true) :
    containsLink (appendEntry today pd a) l = true := by
  cases hb : lookupA a today with
  | none => rwa [appendEntry_bucket_none today pd a hb]
  | some v =>
    have hs : (lookupA a today).isSome := by simp [hb]
    rw [containsLink_iff_mem_allLinks] at h ⊢
    exact ((allLinks_appendEntry_perm today pd a hs).mem_iff).mpr
      (List.mem_cons_of_mem _ h)

theorem containsLink_appendEntry_self (today : String) (pd : PaperData) (a : Archive)
    (h : (lookupA a today).isSome) :
    containsLink (appendEntry today pd a) pd.arxiv_html_link = true := by
  rw [containsLink_iff_mem_allLinks]
  exact ((allLinks_appendEntry_perm today pd a h).mem_iff).mpr (List.mem_cons_self _ _)

theorem appendEntry_ne_self (today : String) (pd : PaperData) (a : Archive)
    (h : (lookupA a today).isSome) : appendEntry today pd a ≠ a := by
  intro hc
  have := totalCount_appendEntry today pd a h
  rw [hc] at this
  omega

theorem lookupA_concat_ne (t d : String) (hne : d ≠ t) :
    ∀ a : Archive, lookupA (a ++ [(t, [])]) d = lookupA a d
  | [] => by
    have : ¬(t = d) := fun hc => hne hc.symm
    simp [lookupA, this]
  | (k, ps) :: rest => by
    by_cases hk : k = d
    · simp [lookupA, hk]
    · simp [lookupA, hk, lookupA_concat_ne t d hne rest]

theorem lookupA_concat_self (t : String) :
    ∀ a : Archive, lookupA a t = none → lookupA (a ++ [(t, [])]) t = some []
  | [], _ => by simp [lookupA]
  | (k, ps) :: rest, h => by
    have hk : k ≠ t := by
      intro hc
      simp [lookupA, hc] at h
    have h' : lookupA rest t = none := by
      simpa [lookupA, hk] using h
    simp [lookupA, hk, lookupA_concat_self t rest h']

theorem totalCount_concat_empty (t : String) :
    ∀ a : Archive, totalCount (a ++ [(t, [])]) = totalCount a
  | [] => by simp [totalCount]
  | (k, ps) :: rest => by simp [totalCount, totalCount_concat_empty t rest]

theorem allLinks_concat_empty (t : String) :
    ∀ a : Archive, allLinks (a ++ [(t, [])]) = allLinks a
  | [] => by simp [allLinks]
  | (k, ps) :: rest => by simp [allLinks, allLinks_concat_empty t rest]

theorem ensureToday_isSome (today : String) (a : Archive) :
    (lookupA (ensureToday today a) today).isSome := by
  unfold ensureToday
  split
  · assumption
  · rename_i h
    have hn : lookupA a today = none := Option.not_isSome_iff_eq_none.mp h
    rw [lookupA_concat_self today a hn]
    rfl

theorem ensureToday_of_isSome (today : String) (a : Archive)
    (h : (lookupA a today).isSome) : ensureToday today a = a := by
  simp [ensureToday, h]

theorem totalCount_ensureToday (today : String) (a : Archive) :
    totalCount (ensureToday today a) = totalCount a := by
  unfold ensureToday
  split
  · rfl
  · exact totalCount_concat_empty today a

theorem lookupA_ensureToday_ne (today d : String) (hne : d ≠ today) (a : Archive) :
    lookupA (ensureToday today a) d = lookupA a d := by
  unfold ensureToday
  split
  · rfl
  · exact lookupA_concat_ne today d hne a

theorem getD_lookupA_ensureToday (today : String) (a : Archive) :
    (lookupA (ensureToday today a) today).getD [] = (lookupA a today).getD [] := by
  unfold ensureToday
  split
  · rfl
  · rename_i h
    have hn : lookupA a today = none := Option.not_isSome_iff_eq_none.mp h
    rw [lookupA_concat_self today a hn, hn]
    rfl

theorem allLinks_ensureToday (today : String) (a : Archive) :
    allLinks (ensureToday today a) = allLinks a := by
  unfold ensureToday
  split
  · rfl
  · exact allLinks_concat_empty today a

/-! ## Crawl-loop lemmas -/

theorem processItems_nil (env : Env) (today : String) (a : Archive) :
    processItems env today a [] = (a, true) := rfl

theorem processItems_cons (env : Env) (today : String) (a : Archive) (dt dd : Node)
    (rest : List (Node × Node)) :
    processItems env today a ((dt, dd) :: rest) =
      match (processOneItem env a dt dd).outcome with
      | .error _ => (a, false)
      | .ok none => processItems env today a rest
      | .ok (some pd) => processItems env today (appendEntry today pd a) rest := rfl

theorem processItems_cons_error (env : Env) (today : String) (a : Archive) (dt dd : Node)
    (rest : List (Node × Node)) (e : String)
    (h : (processOneItem env a dt dd).outcome = .error e) :
    processItems env today a ((dt, dd) :: rest) = (a, false) := by
  rw [processItems_cons, h]

theorem processItems_cons_skip (env : Env) (today : String) (a : Archive) (dt dd : Node)
    (rest : List (Node × Node))
    (h : (processOneItem env a dt dd).outcome = .ok none) :
    processItems env today a ((dt, dd) :: rest) = processItems env today a rest := by
  rw [processItems_cons, h]

theorem processItems_cons_app (env : Env) (today : String) (a : Archive) (dt dd : Node)
    (rest : List (Node × Node)) (pd : PaperData)
    (h : (processOneItem env a dt dd).outcome = .ok (some pd)) :
    processItems env today a ((dt, dd) :: rest) =
      processItems env today (appendEntry today pd a) rest := by
  rw [processItems_cons, h]

theorem processOneItem_noLink (env : Env) (a : Archive) (dt dd : Node)
    (h : findHtmlLink dt = none) :
    processOneItem env a dt dd = ⟨.ok none, false, false⟩ := by
  simp [processOneItem, h]

theorem processOneItem_dup (env : Env) (a : Archive) (dt dd : Node) (href : String)
    (h : findHtmlLink dt = some href)
    (hc : containsLink a (normalizeLink href) = true) :
    processOneItem env a dt dd = ⟨.ok none, false, false⟩ := by
  simp [processOneItem, h, hc]

theorem processOneItem_new (env : Env) (a : Archive) (dt dd : Node) (href : String)
    (h : findHtmlLink dt = some href)
    (hc : containsLink a (normalizeLink href) = false) :
    processOneItem env a dt dd = itemOutcome env (normalizeLink href) dt dd := by
  simp [processOneItem, h, hc]

theorem itemOutcome_link (env : Env) (l : String) (dt dd : Node) (pd : PaperData)
    (h : (itemOutcome env l dt dd).outcome = .ok (some pd)) :
    pd.arxiv_html_link = l := by
  unfold itemOutcome at h
  cases hf : env.fetchDetail l with
  | none => rw [hf] at h; simp at h
  | some soup =>
    rw [hf] at h
    cases hm : findMeta dd with
    | none => rw [hm] at h; simp at h
    | some meta =>
      rw [hm] at h
      cases hi : extract_introduction soup with
      | error e => simp only [hi] at h; exact absurd h (by simp)
      | ok intro =>
        simp only [hi] at h
        have h2 : some _ = some pd := Except.ok.inj h
        have h3 := Option.some.inj h2
        rw [← h3]

theorem processItems_isSome (env : Env) (today k : String) :
    ∀ (items : List (Node × Node)) (a : Archive), (lookupA a k).isSome →
      (lookupA (processItems env today a items).1 k).isSome
  | [], _, h => h
  | (dt, dd) :: rest, a, h => by
    rw [processItems_cons]
    cases ho : (processOneItem env a dt dd).outcome with
    | error e => simpa using h
    | ok o =>
      cases o with
      | none => simpa using processItems_isSome env today k rest a h
      | some pd =>
        simpa using processItems_isSome env today k rest (appendEntry today pd a)
          (isSome_lookupA_appendEntry today k pd a h)

theorem processItems_contains_mono (env : Env) (today l : String) :
    ∀ (items : List (Node × Node)) (a : Archive), containsLink a l = true →
      containsLink (processItems env today a items).1 l = true
  | [], _, h => h
  | (dt, dd) :: rest, a, h => by
    rw [processItems_cons]
    cases ho : (processOneItem env a dt dd).outcome with
    | error e => simpa using h
    | ok o =>
      cases o with
      | none => simpa using processItems_contains_mono env today l rest a h
      | some pd =>
        simpa using processItems_contains_mono env today l rest (appendEntry today pd a)
          (containsLink_appendEntry_mono today l pd a h)

theorem processItems_frame (env : Env) (today : String) :
    ∀ (items : List (Node × Node)) (a : Archive), (lookupA a today).isSome →
      ∃ new : List PaperData,
        lookupA (processItems env today a items).1 today
            = some ((lookupA a today).getD [] ++ new) ∧
        (∀ d, d ≠ today → lookupA (processItems env today a items).1 d = lookupA a d) ∧
        totalCount (processItems env today a items).1 = totalCount a + new.length
  | [], a, h => by
    obtain ⟨v, hv⟩ := Option.isSome_iff_exists.mp h
    exact ⟨[], by simp [processItems_nil, hv], fun d _ => rfl, by simp [processItems_nil]⟩
  | (dt, dd) :: rest, a, h => by
    rw [processItems_cons]
    cases ho : (processOneItem env a dt dd).outcome with
    | error e =>
      obtain ⟨v, hv⟩ := Option.isSome_iff_exists.mp h
      exact ⟨[], by simp [hv], fun d _ => rfl, by simp⟩
    | ok o =>
      cases o with
      | none => simpa using processItems_frame env today rest a h
      | some pd =>
        have h1 := isSome_lookupA_appendEntry today today pd a h
        obtain ⟨new, hb, hothers, hcount⟩ :=
          processItems_frame env today rest (appendEntry today pd a) h1
        refine ⟨pd :: new, ?_, ?_, ?_⟩
        · simp [hb, lookupA_appendEntry_self today pd a h]
        · intro d hd
          simpa [hothers d hd] using lookupA_appendEntry_ne today d pd hd a
        · simp only [hcount, totalCount_appendEntry today pd a h, List.length_cons]
          omega

theorem processItems_idem (env : Env) (today : String) :
    ∀ (items : List (Node × Node)) (a a2 : Archive) (ok : Bool),
      (lookupA a today).isSome →
      processItems env today a items = (a2, ok) →
      processItems env today a2 items = (a2, ok)
  | [], a, a2, ok, _, hr => by
    rw [processItems_nil] at hr
    cases hr
    exact processItems_nil env today a
  | (dt, dd) :: rest, a, a2, ok, hs, hr => by
    cases hl : findHtmlLink dt with
    | none =>
      have h1 : (processOneItem env a dt dd).outcome = .ok none := by
        rw [processOneItem_noLink env a dt dd hl]
      have h2 : (processOneItem env a2 dt dd).outcome = .ok none := by
        rw [processOneItem_noLink env a2 dt dd hl]
      rw [processItems_cons_skip env today a dt dd rest h1] at hr
      rw [processItems_cons_skip env today a2 dt dd rest h2]
      exact processItems_idem env today rest a a2 ok hs hr
    | some href =>
      cases hc : containsLink a (normalizeLink href) with
      | true =>
        have h1 : (processOneItem env a dt dd).outcome = .ok none := by
          rw [processOneItem_dup env a dt dd href hl hc]
        rw [processItems_cons_skip env today a dt dd rest h1] at hr
        have hc2 : containsLink a2 (normalizeLink href) = true := by
          have := processItems_contains_mono env today (normalizeLink href) rest a hc
          rwa [hr] at this
        have h2 : (processOneItem env a2 dt dd).outcome = .ok none := by
          rw [processOneItem_dup env a2 dt dd href hl hc2]
        rw [processItems_cons_skip env today a2 dt dd rest h2]
        exact processItems_idem env today rest a a2 ok hs hr
      | false =>
        have hnew := processOneItem_new env a dt dd href hl hc
        cases ho : (itemOutcome env (normalizeLink href) dt dd).outcome with
        | error e =>
          have h1 : (processOneItem env a dt dd).outcome = .error e := by
            rw [hnew, ho]
          rw [processItems_cons_error env today a dt dd rest e h1] at hr
          cases hr
          have h2 : (processOneItem env a dt dd).outcome = .error e := h1
          exact processItems_cons_error env today a dt dd rest e h1
        | ok o =>
          cases o with
          | none =>
            have h1 : (processOneItem env a dt dd).outcome = .ok none := by
              rw [hnew, ho]
            rw [processItems_cons_skip env today a dt dd rest h1] at hr
            cases hc2 : containsLink a2 (normalizeLink href) with
            | true =>
              have h2 : (processOneItem env a2 dt dd).outcome = .ok none := by
                rw [processOneItem_dup env a2 dt dd href hl hc2]
              rw [processItems_cons_skip env today a2 dt dd rest h2]
              exact processItems_idem env today rest a a2 ok hs hr
            | false =>
              have h2 : (processOneItem env a2 dt dd).outcome = .ok none := by
                rw [processOneItem_new env a2 dt dd href hl hc2, ho]
              rw [processItems_cons_skip env today a2 dt dd rest h2]
              exact processItems_idem env today rest a a2 ok hs hr
          | some pd =>
            have h1 : (processOneItem env a dt dd).outcome = .ok (some pd) := by
              rw [hnew, ho]
            rw [processItems_cons_app env today a dt dd rest pd h1] at hr
            have hlink : pd.arxiv_html_link = normalizeLink href :=
              itemOutcome_link env (normalizeLink href) dt dd pd ho
            have hself : containsLink (appendEntry today pd a) (normalizeLink href) = true := by
              rw [← hlink]
              exact containsLink_appendEntry_self today pd a hs
            have hc2 : containsLink a2 (normalizeLink href) = true := by
              have := processItems_contains_mono env today (normalizeLink href) rest
                (appendEntry today pd a) hself
              rwa [hr] at this
            have h2 : (processOneItem env a2 dt dd).outcome = .ok none := by
              rw [processOneItem_dup env a2 dt dd href hl hc2]
            rw [processItems_cons_skip env today a2 dt dd rest h2]
            exact processItems_idem env today rest (appendEntry today pd a) a2 ok
              (isSome_lookupA_appendEntry today today pd a hs) hr

theorem processItems_nodup (env : Env) (today : String) :
    ∀ (items : List (Node × Node)) (a : Archive), (lookupA a today).isSome →
      (allLinks a).Nodup → (allLinks (processItems env today a items).1).Nodup
  | [], _, _, hn => hn
  | (dt, dd) :: rest, a, hs, hn => by
    cases hl : findHtmlLink dt with
    | none =>
      have h1 : (processOneItem env a dt dd).outcome = .ok none := by
        rw [processOneItem_noLink env a dt dd hl]
      rw [processItems_cons_skip env today a dt dd rest h1]
      exact processItems_nodup env today rest a hs hn
    | some href =>
      cases hc : containsLink a (normalizeLink href) with
      | true =>
        have h1 : (processOneItem env a dt dd).outcome = .ok none := by
          rw [processOneItem_dup env a dt dd href hl hc]
        rw [processItems_cons_skip env today a dt dd rest h1]
        exact processItems_nodup env today rest a hs hn
      | false =>
        have hnew := processOneItem_new env a dt dd href hl hc
        cases ho : (itemOutcome env (normalizeLink href) dt dd).outcome with
        | error e =>
          have h1 : (processOneItem env a dt dd).outcome = .error e := by
            rw [hnew, ho]
          rw [processItems_cons_error env today a dt dd rest e h1]
          exact hn
        | ok o =>
          cases o with
          | none =>
            have h1 : (processOneItem env a dt dd).outcome = .ok none := by
              rw [hnew, ho]
            rw [processItems_cons_skip env today a dt dd rest h1]
            exact processItems_nodup env today rest a hs hn
          | some pd =>
            have h1 : (processOneItem env a dt dd).outcome = .ok (some pd) := by
              rw [hnew, ho]
            rw [processItems_cons_app env today a dt dd rest pd h1]
            have hlink : pd.arxiv_html_link = normalizeLink href :=
              itemOutcome_link env (normalizeLink href) dt dd pd ho
            have hnotmem : pd.arxiv_html_link ∉ allLinks a := by
              rw [hlink]
              intro hm
              rw [← containsLink_iff_mem_allLinks] at hm
              rw [hm] at hc
              exact Bool.true_eq_false.mp hc
            have hn' : (allLinks (appendEntry today pd a)).Nodup :=
              ((allLinks_appendEntry_perm today pd a hs).nodup_iff).mpr
                (List.nodup_cons.mpr ⟨hnotmem, hn⟩)
            exact processItems_nodup env today rest (appendEntry today pd a)
              (isSome_lookupA_appendEntry today today pd a hs) hn'

/-! ## Concrete fixtures for witnesses and counterexamples -/

/-- A listing `dt` block holding one `View HTML` anchor. -/
def dtWithLink (href : String) : Node :=
  Node.elem "dt" none [] none none
    [Node.elem "a" none [] (some "View HTML") (some href) []]

/-- A listing `dd` block holding an empty `div.meta`. -/
def ddWithMeta : Node :=
  Node.elem "dd" none [] none none
    [Node.elem "div" none ["meta"] none none []]

/-- A detail page with no recognisable abstract or introduction. -/
def emptySoup : Node := Node.elem "html" none [] none none []

/-- Environment whose detail fetches always fail. -/
def envFetchFail : Env := ⟨fun _ => none, fun _ _ _ => .error "e", "t"⟩

/-- Environment with successful fetches and a well-formed summarizer reply. -/
def envOk : Env := ⟨fun _ => some emptySoup, fun _ _ _ => .ok "分数：4分", "t"⟩

/-- An archived entry whose identifier collides with `dtX`'s link. -/
def pdX : PaperData :=
  { crawl_datetime := "t", title := "T", authors := "A", subjects := "S"
    comment := "", pdf_link := "", code := "", arxiv_abs_link := ""
    arxiv_html_link := "https://arxiv.org/html/2501.00001"
    abstract := "", introduction := "", llm_summary := "", llm_score := 0
    llm_error := "" }

def dtX : Node := dtWithLink "/html/2501.00001"
def archX : Archive := [("2025-01-01", [pdX])]
def arch0 : Archive := [("2025-01-01", [])]

def dtY : Node := dtWithLink "/html/2501.00002"
def archY : Archive := [("2025-01-02", [])]

/-- The entry `envOk` produces for `dtY`/`ddWithMeta` (all fields as the
pipeline computes them on `emptySoup`). -/
def pdY : PaperData :=
  { crawl_datetime := "t", title := "未知标题", authors := "未知作者"
    subjects := "未知学科", comment := "", pdf_link := "", code := ""
    arxiv_abs_link := "", arxiv_html_link := "https://arxiv.org/html/2501.00002"
    abstract := "未获取到摘要", introduction := "未获取到引言"
    llm_summary := "分数：4分", llm_score := 4, llm_error := "" }

/-! ## C1 -/

/-- C1 (amended).  A duplicate identifier always causes a skip before any
fetch; for an item with an HTML link whose downstream pipeline would
produce an entry, the loop appends nothing if and only if the identifier is
already stored; one crawl run is idempotent over an unchanged listing
source; and identifier-uniqueness of the whole archive is preserved. -/
theorem crawl_skip_iff_duplicate_and_idempotent :
    (∀ (env : Env) (a : Archive) (dt dd : Node) (href : String),
        findHtmlLink dt = some href →
        containsLink a (normalizeLink href) = true →
        (processOneItem env a dt dd).outcome = Except.ok none) ∧
    (∀ (env : Env) (today : String) (a : Archive) (dt dd : Node) (href : String)
        (pd : PaperData),
        findHtmlLink dt = some href →
        (itemOutcome env (normalizeLink href) dt dd).outcome = Except.ok (some pd) →
        (lookupA a today).isSome →
        (stepArchive env today a dt dd = a ↔
          containsLink a (normalizeLink href) = true)) ∧
    (∀ (env : Env) (today : String) (fs : LoadResult) (items : List (Node × Node)),
        runCrawl env today (LoadResult.loaded (runCrawl env today fs items).1) items
          = runCrawl env today fs items) ∧
    (∀ (env : Env) (today : String) (fs : LoadResult) (items : List (Node × Node)),
        (allLinks (load_archive fs)).Nodup →
        (allLinks (runCrawl env today fs items).1).Nodup) := by
  refine ⟨?_, ?_, ?_, ?_⟩
  · intro env a dt dd href hl hc
    rw [processOneItem_dup env a dt dd href hl hc]
  · intro env today a dt dd href pd hl ho hs
    constructor
    · intro hstep
      cases hc : containsLink a (normalizeLink href) with
      | true => rfl
      | false =>
        exfalso
        have houtcome : (processOneItem env a dt dd).outcome = Except.ok (some pd) := by
          rw [processOneItem_new env a dt dd href hl hc, ho]
        have hstep2 : stepArchive env today a dt dd = appendEntry today pd a := by
          simp [stepArchive, houtcome]
        rw [hstep2] at hstep
        exact appendEntry_ne_self today pd a hs hstep
    · intro hc
      have h1 : (processOneItem env a dt dd).outcome = Except.ok none := by
        rw [processOneItem_dup env a dt dd href hl hc]
      simp [stepArchive, h1]
  · intro env today fs items
    obtain ⟨a1, ok1, hr⟩ :
        ∃ a1 ok1, processItems env today (ensureToday today (load_archive fs)) items
          = (a1, ok1) := ⟨_, _, rfl⟩
    have hs : (lookupA (ensureToday today (load_archive fs)) today).isSome :=
      ensureToday_isSome today (load_archive fs)
    have hsa1 : (lookupA a1 today).isSome := by
      have := processItems_isSome env today today items (ensureToday today (load_archive fs)) hs
      rwa [hr] at this
    have h1 : runCrawl env today fs items = (a1, ok1) := hr
    rw [h1]
    show processItems env today (ensureToday today a1) items = (a1, ok1)
    rw [ensureToday_of_isSome today a1 hsa1]
    exact processItems_idem env today items _ a1 ok1 hs hr
  · intro env today fs items hnd
    have hs := ensureToday_isSome today (load_archive fs)
    have hnd' : (allLinks (ensureToday today (load_archive fs))).Nodup := by
      rwa [allLinks_ensureToday]
    exact processItems_nodup env today items _ hs hnd'

/-- Witness for C1: concrete instances of all four conjuncts. -/
theorem crawl_skip_iff_duplicate_and_idempotent_witness :
    (processOneItem envFetchFail archX dtX ddWithMeta).outcome = Except.ok none ∧
    (stepArchive envOk "2025-01-02" archY dtY ddWithMeta = archY ↔
      containsLink archY (normalizeLink "/html/2501.00002") = true) ∧
    runCrawl envOk "2025-01-02"
        (LoadResult.loaded (runCrawl envOk "2025-01-02" (LoadResult.loaded archY) []).1) []
      = runCrawl envOk "2025-01-02" (LoadResult.loaded archY) [] ∧
    (allLinks (runCrawl envFetchFail "2025-01-01" LoadResult.fileMissing []).1).Nodup := by
  refine ⟨?_, ?_, ?_, ?_⟩
  · exact crawl_skip_iff_duplicate_and_idempotent.1 envFetchFail archX dtX ddWithMeta
      "/html/2501.00001" (by decide) (by decide)
  · exact crawl_skip_iff_duplicate_and_idempotent.2.1 envOk "2025-01-02" archY dtY
      ddWithMeta "/html/2501.00002" pdY (by decide) (by decide) (by decide)
  · exact crawl_skip_iff_duplicate_and_idempotent.2.2.1 envOk "2025-01-02"
      (LoadResult.loaded archY) []
  · exact crawl_skip_iff_duplicate_and_idempotent.2.2.2 envFetchFail "2025-01-01"
      LoadResult.fileMissing [] (by decide)

/-- Counterexample to C1 as stated: an item with a fresh identifier whose
detail-page fetch fails is skipped (nothing appended) although no entry with
that identifier exists anywhere in the archive, so "skips if and only if a
duplicate exists" is false. -/
theorem crawl_skip_iff_duplicate_counterexample :
    stepArchive envFetchFail "2025-01-01" arch0 dtX ddWithMeta = arch0 ∧
    containsLink arch0 (normalizeLink "/html/2501.00001") = false := by
  constructor
  · decide
  · decide

/-! ## C2 -/

/-- C2.  Merge safety: a crawl run starting from a loaded archive leaves
every other date bucket exactly as loaded (same entries, same order, no
loss), extends today's bucket by appending some list `new` of harvested
entries after the pre-existing ones, and the final entry count is the
initial count plus the number of appended entries. -/
theorem crawl_merge_safety :
    ∀ (env : Env) (today : String) (a0 : Archive) (items : List (Node × Node)),
      ∃ new : List PaperData,
        lookupA (runCrawl env today (LoadResult.loaded a0) items).1 today
            = some ((lookupA a0 today).getD [] ++ new) ∧
        (∀ d, d ≠ today →
          lookupA (runCrawl env today (LoadResult.loaded a0) items).1 d = lookupA a0 d) ∧
        totalCount (runCrawl env today (LoadResult.loaded a0) items).1
            = totalCount a0 + new.length := by
  intro env today a0 items
  have hs : (lookupA (ensureToday today a0) today).isSome := ensureToday_isSome today a0
  obtain ⟨new, hb, hothers, hcount⟩ := processItems_frame env today items (ensureToday today a0) hs
  refine ⟨new, ?_, ?_, ?_⟩
  · show lookupA (processItems env today (ensureToday today a0) items).1 today = _
    rw [hb, getD_lookupA_ensureToday today a0]
  · intro d hd
    show lookupA (processItems env today (ensureToday today a0) items).1 d = _
    rw [hothers d hd, lookupA_ensureToday_ne today d hd a0]
  · show totalCount (processItems env today (ensureToday today a0) items).1 = _
    rw [hcount, totalCount_ensureToday today a0]

/-- Witness for C2: with one genuinely new item harvested on 2025-01-02,
the loaded 2025-01-01 bucket is returned untouched. -/
theorem crawl_merge_safety_witness :
    lookupA (runCrawl envOk "2025-01-02" (LoadResult.loaded archX)
      [(dtY, ddWithMeta)]).1 "2025-01-01" = some [pdX] := by
  obtain ⟨new, _, h2, _⟩ :=
    crawl_merge_safety envOk "2025-01-02" archX [(dtY, ddWithMeta)]
  rw [h2 "2025-01-01" (by decide)]
  decide

/-! ## C3 -/

/-- Environment with successful fetches whose summarizer call raises. -/
def envLlmFail : Env := ⟨fun _ => some emptySoup, fun _ _ _ => .error "boom", "t"⟩

/-- The bare `div.meta` element inside `ddWithMeta`. -/
def metaEmpty : Node := Node.elem "div" none ["meta"] none none []

/-- The entry `envLlmFail` stores for `dtY`/`ddWithMeta`: failure placeholder
summary, score 0, captured error text. -/
def pdZ : PaperData :=
  { crawl_datetime := "t", title := "未知标题", authors := "未知作者"
    subjects := "未知学科", comment := "", pdf_link := "", code := ""
    arxiv_abs_link := "", arxiv_html_link := "https://arxiv.org/html/2501.00002"
    abstract := "未获取到摘要", introduction := "未获取到引言"
    llm_summary := "大模型总结失败", llm_score := 0, llm_error := "boom" }

/-- Unfolds `itemOutcome` when the detail fetch, metadata block, and
introduction extraction all succeed: the full assembled entry. -/
theorem itemOutcome_spec (env : Env) (l : String) (dt dd soup meta : Node) (intr : String)
    (hf : env.fetchDetail l = some soup) (hm : findMeta dd = some meta)
    (hi : extract_introduction soup = .ok intr) :
    itemOutcome env l dt dd = ⟨Except.ok (some
      { crawl_datetime := env.crawlDatetime, title := extractTitle meta,
        authors := extractAuthors meta, subjects := extractSubjects meta,
        comment := (process_comment_and_code (find1 isListComments meta)).1,
        pdf_link := extract_pdf_link dt,
        code := (process_comment_and_code (find1 isListComments meta)).2,
        arxiv_abs_link := findAbsLinkStr dt,
        arxiv_html_link := l,
        abstract := extract_abstract soup, introduction := intr,
        llm_summary := (call_llm_for_summary
          (env.llmResponse (extractTitle meta) (extract_abstract soup) intr)).summary,
        llm_score := (call_llm_for_summary
          (env.llmResponse (extractTitle meta) (extract_abstract soup) intr)).score,
        llm_error := (call_llm_for_summary
          (env.llmResponse (extractTitle meta) (extract_abstract soup) intr)).error }),
      true, true⟩ := by
  simp only [itemOutcome, hf, hm, hi]

/-- C3 (amended).  When the detail page was fetched, the metadata block is
present, introduction extraction succeeds, and the summarization call
fails, the loop still appends the assembled entry to today's bucket — with
the fixed failure placeholder as summary text, score 0, and the captured
error text; the item is not dropped. -/
theorem summarizer_failure_keeps_entry :
    ∀ (env : Env) (today : String) (a : Archive) (dt dd : Node) (href : String)
      (soup meta : Node) (intr e : String),
      findHtmlLink dt = some href →
      containsLink a (normalizeLink href) = false →
      env.fetchDetail (normalizeLink href) = some soup →
      findMeta dd = some meta →
      extract_introduction soup = .ok intr →
      env.llmResponse (extractTitle meta) (extract_abstract soup) intr = .error e →
      (lookupA a today).isSome →
      ∃ pd : PaperData,
        stepArchive env today a dt dd = appendEntry today pd a ∧
        appendEntry today pd a ≠ a ∧
        pd.llm_summary = "大模型总结失败" ∧ pd.llm_score = 0 ∧ pd.llm_error = e := by
  intro env today a dt dd href soup meta intr e hl hc hf hm hi hllm hs
  refine ⟨{ crawl_datetime := env.crawlDatetime, title := extractTitle meta,
            authors := extractAuthors meta, subjects := extractSubjects meta,
            comment := (process_comment_and_code (find1 isListComments meta)).1,
            pdf_link := extract_pdf_link dt,
            code := (process_comment_and_code (find1 isListComments meta)).2,
            arxiv_abs_link := findAbsLinkStr dt,
            arxiv_html_link := normalizeLink href,
            abstract := extract_abstract soup, introduction := intr,
            llm_summary := "大模型总结失败", llm_score := 0, llm_error := e },
          ?_, ?_, rfl, rfl, rfl⟩
  · have hio := itemOutcome_spec env (normalizeLink href) dt dd soup meta intr hf hm hi
    rw [hllm] at hio
    have h1 : (processOneItem env a dt dd).outcome
        = Except.ok (some
          { crawl_datetime := env.crawlDatetime, title := extractTitle meta,
            authors := extractAuthors meta, subjects := extractSubjects meta,
            comment := (process_comment_and_code (find1 isListComments meta)).1,
            pdf_link := extract_pdf_link dt,
            code := (process_comment_and_code (find1 isListComments meta)).2,
            arxiv_abs_link := findAbsLinkStr dt,
            arxiv_html_link := normalizeLink href,
            abstract := extract_abstract soup, introduction := intr,
            llm_summary := "大模型总结失败", llm_score := 0, llm_error := e }) := by
      rw [processOneItem_new env a dt dd href hl hc, hio]
      simp [call_llm_for_summary]
    simp [stepArchive, h1]
  · exact appendEntry_ne_self today _ a hs

/-- Witness for C3: the failing summarizer still changes the archive (the
entry is appended). -/
theorem summarizer_failure_keeps_entry_witness :
    stepArchive envLlmFail "2025-01-02" archY dtY ddWithMeta ≠ archY := by
  obtain ⟨pd, h1, h2, _⟩ :=
    summarizer_failure_keeps_entry envLlmFail "2025-01-02" archY dtY ddWithMeta
      "/html/2501.00002" emptySoup metaEmpty "未获取到引言" "boom"
      (by decide) (by decide) rfl rfl (by decide) rfl (by decide)
  rw [h1]
  exact h2

/-- Counterexample to C3 as stated: the stored entry's summary text is the
fixed non-empty placeholder, not the empty string the claim requires. -/
theorem summarizer_failure_empty_summary_counterexample :
    stepArchive envLlmFail "2025-01-02" archY dtY ddWithMeta
      = [("2025-01-02", [pdZ])] ∧ pdZ.llm_summary ≠ "" := by
  constructor
  · decide
  · decide

/-! ## C4 -/

/-- C4 (amended).  The interrupt handler attempts the JSON flush exactly
when the archive dictionary is non-empty; the renderer runs exactly when
the archive is non-empty and the flush succeeded (a flush failure is caught
and skips the render); and the process exits with code 0 in every case. -/
theorem signal_handler_behavior :
    ∀ (a : Archive) (flushOk : Bool),
      ((signal_handler a flushOk).flushAttempted = true ↔ a ≠ []) ∧
      ((signal_handler a flushOk).rendered = true ↔ (a ≠ [] ∧ flushOk = true)) ∧
      (signal_handler a flushOk).exitCode = 0 := by
  intro a flushOk
  cases a with
  | nil => cases flushOk <;> simp [signal_handler]
  | cons b rest => cases flushOk <;> simp [signal_handler]

/-- Counterexample to C4 as stated: with a non-empty archive whose flush
fails, the renderer is not invoked, refuting "invokes the renderer if and
only if the Archive is non-empty" (the exit code is still 0). -/
theorem signal_handler_counterexample :
    (signal_handler archX false).rendered = false ∧ archX ≠ [] ∧
    (signal_handler archX false).exitCode = 0 := by
  refine ⟨?_, ?_, ?_⟩
  · decide
  · decide
  · decide

/-! ## C5 -/

/-- C5.  Mismatched listing halves are truncated: the loop always handles
exactly `min` of the two list lengths (so no index can run out of range),
the mismatch warning fires exactly when the lengths differ, and with 5
link-entries and 4 metadata-entries exactly 4 items are processed. -/
theorem listing_truncation :
    ∀ (dts dds : List Node),
      (pairItems dts dds).length = min dts.length dds.length ∧
      ((truncateLists dts dds).2.2 = true ↔ dts.length ≠ dds.length) ∧
      (dts.length = 5 → dds.length = 4 → (pairItems dts dds).length = 4) := by
  intro dts dds
  have hmain : (pairItems dts dds).length = min dts.length dds.length := by
    by_cases h : dts.length = dds.length
    · simp [pairItems, truncateLists, h]
    · simp only [pairItems, truncateLists, if_pos h, List.length_zip, List.length_take]
      omega
  refine ⟨hmain, ?_, ?_⟩
  · by_cases h : dts.length = dds.length <;> simp [truncateLists, h]
  · intro h5 h4
    rw [hmain, h5, h4]
    decide

def dts5 : List Node := [emptySoup, emptySoup, emptySoup, emptySoup, emptySoup]
def dds4 : List Node := [emptySoup, emptySoup, emptySoup, emptySoup]

/-- Witness for C5: five link-entries and four metadata-entries give
exactly four processed items. -/
theorem listing_truncation_witness : (pairItems dts5 dds4).length = 4 :=
  (listing_truncation dts5 dds4).2.2 (by decide) (by decide)

/-! ## C6 -/

/-- C6.  The summarizer score is always in {0,…,5}: a raised call yields 0;
a returned text yields the marker value when the score marker is present
with value in 1–5, and 0 when the marker is absent or out of range. -/
theorem summarizer_score_bounds :
    ∀ resp : Except String String,
      (call_llm_for_summary resp).score ≤ 5 ∧
      (∀ e, resp = .error e → (call_llm_for_summary resp).score = 0) ∧
      (∀ c, resp = .ok c →
        (∀ v, searchScore (pyStripStr c).data = some v →
          ((1 ≤ v ∧ v ≤ 5) → (call_llm_for_summary resp).score = v) ∧
          (¬(1 ≤ v ∧ v ≤ 5) → (call_llm_for_summary resp).score = 0)) ∧
        (searchScore (pyStripStr c).data = none →
          (call_llm_for_summary resp).score = 0)) := by
  intro resp
  cases resp with
  | error e =>
    refine ⟨by simp [call_llm_for_summary], fun _ _ => by simp [call_llm_for_summary],
      fun c hc => ?_⟩
    exact absurd hc (by simp)
  | ok c =>
    refine ⟨?_, fun e he => absurd he (by simp), fun c' hc' => ?_⟩
    · show llmScore (pyStripStr c) ≤ 5
      unfold llmScore
      cases hs : searchScore (pyStripStr c).data with
      | none => decide
      | some v =>
        show (if (decide (1 ≤ v) && decide (v ≤ 5)) = true then v else 0) ≤ 5
        have hb : (decide (1 ≤ v) && decide (v ≤ 5)) = true ↔ (1 ≤ v ∧ v ≤ 5) := by
          simp
        by_cases hin : 1 ≤ v ∧ v ≤ 5
        · rw [if_pos (hb.mpr hin)]
          exact hin.2
        · rw [if_neg (fun hc => hin (hb.mp hc))]
          decide
    · have hcc : c' = c := (Except.ok.inj hc').symm
      subst hcc
      constructor
      · intro v hv
        have hb : (decide (1 ≤ v) && decide (v ≤ 5)) = true ↔ (1 ≤ v ∧ v ≤ 5) := by
          simp
        constructor
        · intro hin
          show llmScore (pyStripStr c') = v
          unfold llmScore
          rw [hv]
          show (if (decide (1 ≤ v) && decide (v ≤ 5)) = true then v else 0) = v
          rw [if_pos (hb.mpr hin)]
        · intro hnot
          show llmScore (pyStripStr c') = 0
          unfold llmScore
          rw [hv]
          show (if (decide (1 ≤ v) && decide (v ≤ 5)) = true then v else 0) = 0
          rw [if_neg (fun hc => hnot (hb.mp hc))]
      · intro hnone
        show llmScore (pyStripStr c') = 0
        unfold llmScore
        rw [hnone]

/-- Witness for C6: a reply carrying the marker with value 4 scores 4. -/
theorem summarizer_score_bounds_witness :
    (call_llm_for_summary (Except.ok "分数：4分")).score = 4 := by
  obtain ⟨_, _, h3⟩ := summarizer_score_bounds (Except.ok "分数：4分")
  obtain ⟨h4, _⟩ := h3 "分数：4分" rfl
  exact (h4 4 (by decide)).1 (by decide)

/-! ## C7 -/

/-- An abstract container whose paragraph holds only whitespace. -/
def soupWhitespaceAbstract : Node :=
  Node.elem "root" none [] none none
    [Node.elem "div" none ["ltx_abstract"] none none
      [Node.elem "p" none ["ltx_p"] none none [Node.text "   "]]]

/-- An introduction list item without the expected paragraph container. -/
def soupBadListItem : Node :=
  Node.elem "root" none [] none none
    [Node.elem "section" (some "S1") [] none none
      [Node.elem "ul" none ["ltx_itemize"] none none
        [Node.elem "li" none ["ltx_item"] none none [Node.text "x"]]]]

/-- C7 (amended).  When the expected structure is missing — no abstract
container, a container without its paragraph, or no introduction section —
extraction returns the fixed non-empty placeholder and raises nothing.
(Totality and non-emptiness do not hold unconditionally: see the
counterexample.) -/
theorem extraction_placeholder_on_missing :
    ∀ soup : Node,
      (find1 isAbstractDiv soup = none → extract_abstract soup = "未获取到摘要") ∧
      (∀ cont, find1 isAbstractDiv soup = some cont → find1 isLtxP cont = none →
        extract_abstract soup = "未获取到摘要") ∧
      (find1 isS1 soup = none → extract_introduction soup = Except.ok "未获取到引言") ∧
      ("未获取到摘要" ≠ "" ∧ "未获取到引言" ≠ "") := by
  intro soup
  refine ⟨?_, ?_, ?_, by decide, by decide⟩
  · intro h
    simp [extract_abstract, h]
  · intro cont h1 h2
    simp [extract_abstract, h1, h2]
  · intro h
    simp [extract_introduction, h]

/-- Witness for C7: on a page with neither structure, both extractors
return their placeholders. -/
theorem extraction_placeholder_on_missing_witness :
    extract_abstract emptySoup = "未获取到摘要" ∧
    extract_introduction emptySoup = Except.ok "未获取到引言" := by
  obtain ⟨h1, _, h3, _⟩ := extraction_placeholder_on_missing emptySoup
  exact ⟨h1 rfl, h3 rfl⟩

/-- Counterexample to C7 as stated: a present-but-whitespace abstract
paragraph yields the empty string, and a list item lacking its paragraph
container makes introduction extraction raise `AttributeError` — so the
extractors are neither never-empty nor total. -/
theorem extraction_placeholder_counterexample :
    extract_abstract soupWhitespaceAbstract = "" ∧
    extract_introduction soupBadListItem = Except.error "AttributeError" := by
  constructor
  · decide
  · decide

/-! ## C8 -/

/-- Shape of one emitted list line: `liLine` only ever yields the
`enumerate` index, a dot-space separator, and the cleaned paragraph text. -/
theorem liLine_shape (idx : Nat) (li : Node) (s : String)
    (h : liLine idx li = .ok (some s)) :
    ∃ p, s = Nat.repr idx ++ ". " ++ cleanText p := by
  unfold liLine at h
  cases h1 : find1 isLtxParaDiv li with
  | none => rw [h1] at h; exact absurd h (by simp)
  | some d =>
    rw [h1] at h
    replace h : (match find1 isLtxP d with
      | none => Except.ok none
      | some p => Except.ok (some (Nat.repr idx ++ ". " ++ cleanText p)))
        = Except.ok (some s) := h
    cases h2 : find1 isLtxP d with
    | none => rw [h2] at h; exact absurd h (by simp)
    | some p =>
      rw [h2] at h
      exact ⟨p, (Option.some.inj (Except.ok.inj h)).symm⟩

/-- Every line produced by the numbered-list loop is a numbered line whose
number is at least the starting index. -/
theorem numberLis_shape :
    ∀ (lis : List Node) (idx : Nat) (its : List String),
      numberLis idx lis = .ok its →
      ∀ s ∈ its, ∃ j t, s = Nat.repr j ++ ". " ++ t ∧ idx ≤ j
  | [], idx, its, h, s, hs => by
    have hits : ([] : List String) = its := Except.ok.inj h
    rw [← hits] at hs
    exact absurd hs (List.not_mem_nil s)
  | li :: rest, idx, its, h, s, hs => by
    simp only [numberLis] at h
    cases h1 : liLine idx li with
    | error e => rw [h1] at h; exact absurd h (by simp)
    | ok o =>
      rw [h1] at h
      cases h2 : numberLis (idx + 1) rest with
      | error e => rw [h2] at h; exact absurd h (by simp)
      | ok tail =>
        rw [h2] at h
        cases o with
        | none =>
          have hits : tail = its := Except.ok.inj h
          obtain ⟨j, t, hst, hj⟩ :=
            numberLis_shape rest (idx + 1) tail h2 s (hits ▸ hs)
          exact ⟨j, t, hst, by omega⟩
        | some s' =>
          have hits : s' :: tail = its := Except.ok.inj h
          rw [← hits] at hs
          cases hs with
          | head =>
            obtain ⟨p, hp⟩ := liLine_shape idx li s h1
            exact ⟨idx, cleanText p, hp, Nat.le_refl idx⟩
          | tail _ hmem =>
            obtain ⟨j, t, hst, hj⟩ := numberLis_shape rest (idx + 1) tail h2 s hmem
            exact ⟨j, t, hst, by omega⟩

/-- C8 (amended).  Introduction extraction joins its blocks with blank-line
separation, emitting first every paragraph text (including the paragraphs
sitting inside list items, unnumbered) in document order, and then all
ordered-list items as numbered `j. text` lines — list items are not
interleaved at their document position. -/
theorem intro_blocks_order :
    (∀ (soup sec : Node) (its : List String),
      find1 isS1 soup = some sec →
      itemsOfUls (findAllL isItemizeUl (childs (removeAll isIntroRemovable sec)))
        = .ok its →
      extract_introduction soup = .ok
        (if (introParas (removeAll isIntroRemovable sec) ++ its).isEmpty
         then "未获取到引言"
         else joinSep "\n\n" (introParas (removeAll isIntroRemovable sec) ++ its))) ∧
    (∀ (lis : List Node) (its : List String),
      numberLis 1 lis = .ok its →
      ∀ s ∈ its, ∃ j t, s = Nat.repr j ++ ". " ++ t ∧ 1 ≤ j) := by
  constructor
  · intro soup sec its hsec hits
    simp only [extract_introduction, hsec]
    rw [hits]
  · intro lis its h s hs
    exact numberLis_shape lis 1 its h s hs

/-- The section of `soupParaAfterList`: a list (one item `A`) followed by a
plain paragraph `B`. -/
def secC8 : Node :=
  Node.elem "section" (some "S1") [] none none
    [Node.elem "ul" none ["ltx_itemize"] none none
      [Node.elem "li" none ["ltx_item"] none none
        [Node.elem "div" none ["ltx_para"] none none
          [Node.elem "p" none ["ltx_p"] none none [Node.text "A"]]]],
     Node.elem "div" none ["ltx_para"] none none
       [Node.elem "p" none ["ltx_p"] none none [Node.text "B"]]]

def soupParaAfterList : Node := Node.elem "root" none [] none none [secC8]

/-- Witness for C8: the characterisation applied to a concrete section
whose only list item renders as `1. A`. -/
theorem intro_blocks_order_witness :
    extract_introduction soupParaAfterList = .ok
      (if (introParas (removeAll isIntroRemovable secC8) ++ ["1. A"]).isEmpty
       then "未获取到引言"
       else joinSep "\n\n" (introParas (removeAll isIntroRemovable secC8) ++ ["1. A"])) :=
  intro_blocks_order.1 soupParaAfterList secC8 ["1. A"] rfl (by decide)

/-- Counterexample to C8 as stated: with a list item `A` followed by a
paragraph `B`, the code emits `A`, then `B`, then the numbered `1. A` — the
numbered line is not at its document position (which would give
`1. A`, then `B`), and the item text also appears unnumbered. -/
theorem intro_blocks_order_counterexample :
    extract_introduction soupParaAfterList = Except.ok "A\n\nB\n\n1. A" ∧
    "A\n\nB\n\n1. A" ≠ "1. A\n\nB" := by
  constructor
  · decide
  · decide

/-! ## C9 -/

/-- C9.  Loading the record store never aborts a run: a missing file and a
corrupt file both fall back to the empty archive, and a crawl run from
either state is identical to a run from an explicitly empty archive. -/
theorem archive_load_fallback :
    ∀ (env : Env) (today : String) (items : List (Node × Node)) (e : String)
      (a : Archive),
      load_archive LoadResult.fileMissing = [] ∧
      load_archive (LoadResult.loadError e) = [] ∧
      load_archive (LoadResult.loaded a) = a ∧
      runCrawl env today (LoadResult.loadError e) items
        = runCrawl env today (LoadResult.loaded []) items ∧
      runCrawl env today LoadResult.fileMissing items
        = runCrawl env today (LoadResult.loaded []) items := by
  intro env today items e a
  exact ⟨rfl, rfl, rfl, rfl, rfl⟩

/-! ## C10 -/

/-- A string of nothing but whitespace strips to nothing, so the archived
link is empty too. -/
theorem string_mk_ne_empty (l : List Char) (hl : l ≠ []) : (⟨l⟩ : String) ≠ "" := by
  intro hc
  exact hl (congrArg String.data hc)

/-- The normalised identifier is non-empty whenever the stripped `href` is. -/
theorem normalizeLink_ne_empty (h : String) (hne : pyStrip h.data ≠ []) :
    normalizeLink h ≠ "" := by
  show (if strStarts "/" (pyStripStr h) = true
        then "https://arxiv.org" ++ pyStripStr h else pyStripStr h) ≠ ""
  by_cases hs : strStarts "/" (pyStripStr h) = true
  · rw [if_pos hs]
    intro hc
    have hd : ("https://arxiv.org" ++ pyStripStr h).data = [] := congrArg String.data hc
    have hd2 : "https://arxiv.org".data ++ (pyStripStr h).data = [] := hd
    rcases List.append_eq_nil.mp hd2 with ⟨h1, _⟩
    exact absurd h1 (by decide)
  · rw [if_neg hs]
    exact string_mk_ne_empty (pyStrip h.data) hne

/-- A listing `dt` block with no anchor at all. -/
def dtNoLink : Node := Node.elem "dt" none [] none none []

/-- A `View HTML` anchor whose `href` is the empty string. -/
def dtEmptyHref : Node :=
  Node.elem "dt" none [] none none
    [Node.elem "a" none [] (some "View HTML") (some "") []]

/-- C10 (amended).  An item without an HTML detail link is skipped before
the detail fetch, the summarizer call, and any append; every appended
entry's identifier is exactly the normalised `href` of the item's HTML
link, which was not yet present in the archive and is non-empty whenever
the stripped `href` is non-empty. -/
theorem appended_identifier_source :
    ∀ (env : Env) (today : String) (a : Archive) (dt dd : Node),
      (findHtmlLink dt = none →
        processOneItem env a dt dd = ⟨Except.ok none, false, false⟩ ∧
        stepArchive env today a dt dd = a) ∧
      (∀ pd, (processOneItem env a dt dd).outcome = Except.ok (some pd) →
        ∃ href, findHtmlLink dt = some href ∧
          pd.arxiv_html_link = normalizeLink href ∧
          containsLink a (normalizeLink href) = false ∧
          (pyStrip href.data ≠ [] → pd.arxiv_html_link ≠ "")) := by
  intro env today a dt dd
  constructor
  · intro h
    have h1 := processOneItem_noLink env a dt dd h
    refine ⟨h1, ?_⟩
    have h2 : (processOneItem env a dt dd).outcome = Except.ok none := by rw [h1]
    simp [stepArchive, h2]
  · intro pd hpd
    cases hl : findHtmlLink dt with
    | none =>
      rw [(processOneItem_noLink env a dt dd hl)] at hpd
      exact absurd hpd (by simp)
    | some href =>
      cases hc : containsLink a (normalizeLink href) with
      | true =>
        rw [(processOneItem_dup env a dt dd href hl hc)] at hpd
        exact absurd hpd (by simp)
      | false =>
        rw [(processOneItem_new env a dt dd href hl hc)] at hpd
        have hlink : pd.arxiv_html_link = normalizeLink href :=
          itemOutcome_link env (normalizeLink href) dt dd pd hpd
        refine ⟨href, rfl, hlink, hc, ?_⟩
        intro hne
        rw [hlink]
        exact normalizeLink_ne_empty href hne

/-- Witness for C10: an item with no anchor is skipped with no fetch, no
summarizer call, and no archive change. -/
theorem appended_identifier_source_witness :
    processOneItem envOk archY dtNoLink ddWithMeta = ⟨Except.ok none, false, false⟩ ∧
    stepArchive envOk "2025-01-02" archY dtNoLink ddWithMeta = archY :=
  (appended_identifier_source envOk "2025-01-02" archY dtNoLink ddWithMeta).1 rfl

/-- Counterexample to C10 as stated: a `View HTML` anchor with an empty
`href` passes the skip test, and the resulting archived entry's canonical
identifier is the empty string — neither non-empty nor an absolute URL. -/
theorem appended_identifier_counterexample :
    allLinks (stepArchive envOk "2025-01-02" archY dtEmptyHref ddWithMeta) = [""] := by
  decide
